import Mathlib

/-!
Verification of the opencode Azure DevOps extension's run orchestrator.

The definitions below are a shallow embedding of the TypeScript sources:
`src/common.ts` (trigger resolver, run-config resolution, workspace cleanup),
`src/opencode.ts` (agent process client), `src/git.ts` (diff-hunk
extraction), `src/code-review.ts` and `src/command.ts` (mode runners).
External I/O (HTTP calls, child processes, the file system) is represented
by oracle values describing each call's outcome, and every external call a
run performs is recorded in an action trace.
-/

namespace AzdoOpencode

/-! ### String primitives

JavaScript string operations used by the sources, modelled over `List Char`.
`containsL s k` is `String.prototype.includes`: `k` occurs contiguously in
`s`.  `toLowerL` is `String.prototype.toLowerCase` (ASCII range). -/

/-- `startsWithL s k` : the list `s` begins with the list `k`. -/
def startsWithL : List Char → List Char → Bool
  | _, [] => true
  | [], _ :: _ => false
  | c :: cs, k :: ks => c == k && startsWithL cs ks

/-- `containsL s k` : `k` occurs as a contiguous run inside `s`
(JavaScript `s.includes(k)`). -/
def containsL : List Char → List Char → Bool
  | [], k => k.isEmpty
  | s@(_ :: cs), k => startsWithL s k || containsL cs k

/-- ASCII lower-casing of a character list (JavaScript `toLowerCase`). -/
def toLowerL (s : List Char) : List Char := s.map Char.toLower

theorem startsWithL_iff (s k : List Char) :
    startsWithL s k = true ↔ ∃ t, s = k ++ t := by
  induction k generalizing s with
  | nil => simp [startsWithL]
  | cons c cs ih =>
    cases s with
    | nil => simp [startsWithL]
    | cons a as =>
      simp only [startsWithL, Bool.and_eq_true, beq_iff_eq, ih]
      constructor
      · rintro ⟨rfl, t, rfl⟩
        exact ⟨t, rfl⟩
      · rintro ⟨t, h⟩
        cases h
        exact ⟨rfl, t, rfl⟩

theorem containsL_iff (s k : List Char) :
    containsL s k = true ↔ ∃ a b, s = a ++ k ++ b := by
  induction s with
  | nil =>
    simp only [containsL, List.isEmpty_iff]
    constructor
    · rintro rfl
      exact ⟨[], [], rfl⟩
    · rintro ⟨a, b, h⟩
      rcases List.append_eq_nil.mp (List.append_eq_nil.mp h.symm).1 with ⟨-, h2⟩
      exact h2
  | cons c cs ih =>
    simp only [containsL, Bool.or_eq_true, startsWithL_iff, ih]
    constructor
    · rintro (⟨t, h⟩ | ⟨a, b, h⟩)
      · exact ⟨[], t, by simpa using h⟩
      · exact ⟨c :: a, b, by simp [h]⟩
    · rintro ⟨a, b, h⟩
      cases a with
      | nil => exact Or.inl ⟨b, by simpa using h⟩
      | cons a₀ as =>
        simp only [List.cons_append, List.cons.injEq] at h
        exact Or.inr ⟨as, b, h.2⟩

/-! ### Trigger resolver (`src/common.ts`) -/

/-- `RunMode` from `common.ts`: the two operating modes. -/
inductive RunMode
  | command
  | review
deriving DecidableEq, Repr

/-- `REVIEW_TRIGGER_KEYWORDS` from `common.ts`. -/
def REVIEW_TRIGGER_KEYWORDS : List String := ["/oc-review", "/opencode-review"]

/-- `COMMAND_TRIGGER_KEYWORDS` from `common.ts`. -/
def COMMAND_TRIGGER_KEYWORDS : List String := ["/oc", "/opencode"]

/-- `includesAnyKeyword(content, keywords)` from `common.ts`: lower-case the
content and test each keyword for substring containment. -/
def includesAnyKeyword (content : String) (keywords : List String) : Bool :=
  keywords.any (fun keyword => containsL (toLowerL content.data) keyword.data)

/-- `detectModeFromComment(content)` from `common.ts`: review keywords are
checked first, then command keywords, else no mode. -/
def detectModeFromComment (content : String) : Option RunMode :=
  if includesAnyKeyword content REVIEW_TRIGGER_KEYWORDS then
    some .review
  else if includesAnyKeyword content COMMAND_TRIGGER_KEYWORDS then
    some .command
  else
    none

/-- `validateTrigger(content, mode)` from `common.ts`.  `Except.error`
models a thrown `Error` with the given message. -/
def validateTrigger (content : String) (mode : RunMode) : Except String Unit :=
  let hasReview := includesAnyKeyword content REVIEW_TRIGGER_KEYWORDS
  let hasCommand := includesAnyKeyword content COMMAND_TRIGGER_KEYWORDS
  match mode with
  | .review =>
    if ¬hasReview then
      .error "Comment does not contain review trigger keyword"
    else
      .ok ()
  | .command =>
    if hasReview then
      .error "Comment contains review trigger. Set mode to review to perform code review."
    else if ¬hasCommand then
      .error "Comment does not contain trigger keyword"
    else
      .ok ()

/-- Spec-side reading of "case-insensitive substring containment": some
keyword of the group occurs contiguously in the lower-cased comment text. -/
def HasKeyword (content : String) (keywords : List String) : Prop :=
  ∃ k ∈ keywords, ∃ a b, toLowerL content.data = a ++ k.data ++ b

theorem includesAnyKeyword_iff (content : String) (keywords : List String) :
    includesAnyKeyword content keywords = true ↔ HasKeyword content keywords := by
  simp only [includesAnyKeyword, List.any_eq_true, HasKeyword, containsL_iff]

/-- A thread comment as consumed by the trigger resolver (`id` and
`content` are the only fields the resolver reads). -/
structure ThreadComment where
  id : Nat
  content : String
deriving DecidableEq, Repr

/-- A pull-request thread: its list of comments. -/
structure PullRequestThreadData where
  comments : List ThreadComment
deriving DecidableEq, Repr

/-- `CommandTriggerContext` from `common.ts`: optional thread/comment pair. -/
structure CommandTriggerContext where
  thread : Option PullRequestThreadData
  comment : Option ThreadComment
deriving DecidableEq, Repr

/-- `resolveModeFromComment(triggerContext, explicitMode)` from `common.ts`. -/
def resolveModeFromComment (triggerContext : CommandTriggerContext)
    (explicitMode : Option RunMode) : Except String RunMode :=
  match explicitMode with
  | some m => .ok m
  | none =>
    match triggerContext.comment with
    | none =>
      .error "Cannot infer execution mode without a trigger comment. Provide mode explicitly in the task inputs."
    | some comment =>
      match detectModeFromComment comment.content with
      | none =>
        .error "Could not infer execution mode. Please add /oc for command mode or /oc-review for review mode in the trigger comment."
      | some inferred => .ok inferred

/-- C2: mode detection is the case-insensitive substring containment test
with review priority: a review keyword forces `review`; a command keyword
without any review keyword yields `command`; neither yields no mode. -/
theorem C2_detectModeFromComment_characterization (content : String) :
    (detectModeFromComment content = some .review ↔
      HasKeyword content REVIEW_TRIGGER_KEYWORDS) ∧
    (detectModeFromComment content = some .command ↔
      ¬HasKeyword content REVIEW_TRIGGER_KEYWORDS ∧
        HasKeyword content COMMAND_TRIGGER_KEYWORDS) ∧
    (detectModeFromComment content = none ↔
      ¬HasKeyword content REVIEW_TRIGGER_KEYWORDS ∧
        ¬HasKeyword content COMMAND_TRIGGER_KEYWORDS) := by
  by_cases hr : includesAnyKeyword content REVIEW_TRIGGER_KEYWORDS <;>
    by_cases hc : includesAnyKeyword content COMMAND_TRIGGER_KEYWORDS <;>
      simp [detectModeFromComment, hr, hc, ← includesAnyKeyword_iff]

/-- C2 witness: concrete comments exercising all three detection outcomes. -/
theorem C2_detectModeFromComment_characterization_witness :
    detectModeFromComment "x /OC-Review y" = some .review ∧
    detectModeFromComment "run /oc here" = some .command ∧
    detectModeFromComment "hello" = none := by
  refine ⟨(C2_detectModeFromComment_characterization "x /OC-Review y").1.mpr ?_,
    (C2_detectModeFromComment_characterization "run /oc here").2.1.mpr ⟨?_, ?_⟩,
    (C2_detectModeFromComment_characterization "hello").2.2.mpr ⟨?_, ?_⟩⟩
  · exact ⟨"/oc-review", by decide, "x ".data, " y".data, by decide⟩
  · rw [← includesAnyKeyword_iff]
    decide
  · exact ⟨"/oc", by decide, "run ".data, " here".data, by decide⟩
  · rw [← includesAnyKeyword_iff]
    decide
  · rw [← includesAnyKeyword_iff]
    decide

/-- C3: `validateTrigger` in review mode throws exactly when no review
keyword is present; in command mode it throws when a review keyword is
present or no command keyword is present, and succeeds otherwise. -/
theorem C3_validateTrigger_characterization (content : String) :
    ((validateTrigger content .review).isOk = false ↔
      ¬HasKeyword content REVIEW_TRIGGER_KEYWORDS) ∧
    (HasKeyword content REVIEW_TRIGGER_KEYWORDS →
      (validateTrigger content .command).isOk = false) ∧
    (¬HasKeyword content COMMAND_TRIGGER_KEYWORDS →
      (validateTrigger content .command).isOk = false) ∧
    (¬HasKeyword content REVIEW_TRIGGER_KEYWORDS →
      HasKeyword content COMMAND_TRIGGER_KEYWORDS →
      validateTrigger content .command = .ok ()) := by
  by_cases hr : includesAnyKeyword content REVIEW_TRIGGER_KEYWORDS <;>
    by_cases hc : includesAnyKeyword content COMMAND_TRIGGER_KEYWORDS <;>
      simp [validateTrigger, hr, hc, ← includesAnyKeyword_iff, Except.isOk, Except.toBool]

/-- C3 witness: concrete comments exercising the validation outcomes. -/
theorem C3_validateTrigger_characterization_witness :
    (validateTrigger "nothing" .review).isOk = false ∧
    (validateTrigger "/oc-review x" .command).isOk = false ∧
    (validateTrigger "nothing" .command).isOk = false ∧
    validateTrigger "/opencode go" .command = .ok () := by
  refine ⟨(C3_validateTrigger_characterization "nothing").1.mpr ?_,
    (C3_validateTrigger_characterization "/oc-review x").2.1 ?_,
    (C3_validateTrigger_characterization "nothing").2.2.1 ?_,
    (C3_validateTrigger_characterization "/opencode go").2.2.2 ?_ ?_⟩
  · rw [← includesAnyKeyword_iff]
    decide
  · exact ⟨"/oc-review", by decide, "".data, " x".data, by decide⟩
  · rw [← includesAnyKeyword_iff]
    decide
  · rw [← includesAnyKeyword_iff]
    decide
  · exact ⟨"/opencode", by decide, "".data, " go".data, by decide⟩

/-- C4: with an explicit mode configured, mode resolution returns that mode
and never inspects the trigger context: the result is the same for any two
contexts, including one with no comment at all. -/
theorem C4_resolveModeFromComment_explicit_noninterference
    (m : RunMode) (tc tc' : CommandTriggerContext) :
    resolveModeFromComment tc (some m) = .ok m ∧
    resolveModeFromComment tc (some m) = resolveModeFromComment tc' (some m) :=
  ⟨rfl, rfl⟩

/-- C10: review-mode validation succeeds exactly when detection returns
`review`; and since each review keyword textually contains a command
keyword, a comment with a review keyword also passes the command
containment test, yet command-mode validation throws on it. -/
theorem C10_detection_validation_agreement (content : String) :
    ((validateTrigger content .review).isOk = true ↔
      detectModeFromComment content = some .review) ∧
    (includesAnyKeyword content REVIEW_TRIGGER_KEYWORDS = true →
      includesAnyKeyword content COMMAND_TRIGGER_KEYWORDS = true ∧
      (validateTrigger content .command).isOk = false) := by
  constructor
  · by_cases hr : includesAnyKeyword content REVIEW_TRIGGER_KEYWORDS <;>
      simp [validateTrigger, detectModeFromComment, hr, Except.isOk, Except.toBool]
  · intro hr
    refine ⟨?_, by simp [validateTrigger, hr, Except.isOk, Except.toBool]⟩
    rcases (includesAnyKeyword_iff content REVIEW_TRIGGER_KEYWORDS).mp hr with
      ⟨k, hk, a, b, hdec⟩
    rw [includesAnyKeyword_iff]
    simp only [REVIEW_TRIGGER_KEYWORDS, List.mem_cons, List.not_mem_nil, or_false] at hk
    rcases hk with rfl | rfl
    · exact ⟨"/oc", by decide, a, "-review".data ++ b, by
        rw [hdec]
        simp [List.append_assoc]⟩
    · exact ⟨"/opencode", by decide, a, "-review".data ++ b, by
        rw [hdec]
        simp [List.append_assoc]⟩

/-- C10 witness: a concrete comment with a review keyword passes the
command containment test yet fails command-mode validation. -/
theorem C10_detection_validation_agreement_witness :
    ((validateTrigger "do /oc-review" .review).isOk = true ↔
      detectModeFromComment "do /oc-review" = some .review) ∧
    (includesAnyKeyword "do /oc-review" COMMAND_TRIGGER_KEYWORDS = true ∧
      (validateTrigger "do /oc-review" .command).isOk = false) :=
  ⟨(C10_detection_validation_agreement "do /oc-review").1,
    (C10_detection_validation_agreement "do /oc-review").2 (by decide)⟩

/-! ### Agent process client (`src/opencode.ts`) -/

/-- `CONNECTION_RETRY_DELAY_MS` from `opencode.ts`. -/
def CONNECTION_RETRY_DELAY_MS : Nat := 300

/-- `CONNECTION_MAX_RETRIES` from `opencode.ts`. -/
def CONNECTION_MAX_RETRIES : Nat := 30

/-- The retry loop of `waitForConnection`: `live a` tells whether the
liveness call succeeds at attempt `a`; the loop runs `fuel` more attempts
starting at `attempt`.  Alongside the outcome it returns the list of delays
(in ms) performed between retries. -/
def waitForConnectionGo (live : Nat → Bool) (attempt : Nat) :
    Nat → Except String Unit × List Nat
  | 0 => (.error "Failed to connect to opencode server", [])
  | fuel + 1 =>
    if live attempt then
      (.ok (), [])
    else
      let rest := waitForConnectionGo live (attempt + 1) fuel
      (rest.1, CONNECTION_RETRY_DELAY_MS :: rest.2)

/-- `waitForConnection(client)` from `opencode.ts`: up to
`CONNECTION_MAX_RETRIES` liveness calls, a fixed delay after each failed
one, then a fatal error. -/
def waitForConnection (live : Nat → Bool) : Except String Unit × List Nat :=
  waitForConnectionGo live 0 CONNECTION_MAX_RETRIES

theorem waitForConnectionGo_fst (live : Nat → Bool) (fuel attempt : Nat) :
    (waitForConnectionGo live attempt fuel).1 =
      if ∃ i, i < fuel ∧ live (attempt + i) = true then .ok ()
      else .error "Failed to connect to opencode server" := by
  induction fuel generalizing attempt with
  | zero => simp [waitForConnectionGo]
  | succ n ih =>
    simp only [waitForConnectionGo]
    by_cases h : live attempt = true
    · rw [if_pos h, if_pos ⟨0, Nat.succ_pos n, by simpa using h⟩]
    · rw [if_neg h]
      simp only [ih (attempt + 1)]
      by_cases hex : ∃ i, i < n ∧ live (attempt + 1 + i) = true
      · rcases hex with ⟨i, hi, hl⟩
        rw [if_pos ⟨i, hi, hl⟩, if_pos ⟨i + 1, by omega, by
          rw [show attempt + (i + 1) = attempt + 1 + i by omega]
          exact hl⟩]
      · rw [if_neg hex, if_neg ?_]
        rintro ⟨i, hi, hl⟩
        cases i with
        | zero => exact h (by simpa using hl)
        | succ j =>
          exact hex ⟨j, by omega, by
            rw [show attempt + 1 + j = attempt + (j + 1) by omega]
            exact hl⟩

theorem waitForConnectionGo_delays (live : Nat → Bool) (fuel attempt : Nat) :
    ∀ d ∈ (waitForConnectionGo live attempt fuel).2, d = CONNECTION_RETRY_DELAY_MS := by
  induction fuel generalizing attempt with
  | zero => simp [waitForConnectionGo]
  | succ n ih =>
    intro d hd
    rw [waitForConnectionGo] at hd
    by_cases h : live attempt = true
    · rw [if_pos h] at hd
      simp at hd
    · rw [if_neg h] at hd
      simp only [List.mem_cons] at hd
      rcases hd with rfl | hd
      · rfl
      · exact ih (attempt + 1) d hd

/-- C5: the connection poll succeeds exactly when the liveness call
succeeds at some attempt below the retry bound of 30; otherwise, after all
30 attempts fail, it throws the fixed connection error.  Every delay taken
between retries is the fixed 300 ms.  (The loop is a total function, so it
terminates by construction.) -/
theorem C5_waitForConnection_retry_bound (live : Nat → Bool) :
    ((waitForConnection live).1 = .ok () ↔
      ∃ i, i < CONNECTION_MAX_RETRIES ∧ live i = true) ∧
    ((waitForConnection live).1 = .error "Failed to connect to opencode server" ↔
      ∀ i, i < CONNECTION_MAX_RETRIES → live i = false) ∧
    (∀ d ∈ (waitForConnection live).2, d = CONNECTION_RETRY_DELAY_MS) := by
  refine ⟨?_, ?_, waitForConnectionGo_delays live CONNECTION_MAX_RETRIES 0⟩ <;>
    rw [waitForConnection, waitForConnectionGo_fst] <;>
      simp only [Nat.zero_add] <;> split
  next h => exact iff_of_true rfl h
  next h => exact iff_of_false (by simp) h
  next h =>
    refine iff_of_false (by simp) (fun hall => ?_)
    rcases h with ⟨i, hi, hl⟩
    rw [hall i hi] at hl
    exact absurd hl (by simp)
  next h =>
    refine iff_of_true rfl (fun i hi => ?_)
    cases hli : live i
    · rfl
    · exact absurd ⟨i, hi, hli⟩ h

/-- C5 witness: a liveness endpoint that first succeeds at attempt 5 makes
the poll succeed; one that never succeeds within the bound produces the
fixed connection error. -/
theorem C5_waitForConnection_retry_bound_witness :
    (waitForConnection (fun i => i == 5)).1 = .ok () ∧
    (waitForConnection (fun _ => false)).1 = .error "Failed to connect to opencode server" :=
  ⟨(C5_waitForConnection_retry_bound (fun i => i == 5)).1.mpr ⟨5, by decide, by decide⟩,
    (C5_waitForConnection_retry_bound (fun _ => false)).2.1.mpr (fun i _ => rfl)⟩

/-! ### Prompt response handling (`sendPrompt` in `src/opencode.ts`)

The HTTP exchange itself is external; `sendPrompt` here is the processing
the source applies to the call's result: reject non-200 status, then take
the text of the last `"text"`-typed part of the ordered part list. -/

/-- One content part of a prompt response (`type` tag plus text payload). -/
structure PromptPart where
  type : String
  text : String
deriving DecidableEq, Repr

/-- A prompt call result: HTTP status and ordered content parts. -/
structure PromptResult where
  status : Nat
  parts : List PromptPart
deriving DecidableEq, Repr

/-- `sendPrompt` response handling from `opencode.ts`: non-200 status is
fatal; otherwise the text of the last `"text"`-typed part, or `""` when no
such part exists. -/
def sendPrompt (result : PromptResult) : Except String String :=
  if result.status ≠ 200 then
    .error ("OpenCode prompt failed with status " ++ toString result.status)
  else
    let textParts := result.parts.filter (fun p => p.type == "text")
    .ok ((textParts.getLast?.map PromptPart.text).getD "")

/-- C6: on a 200 response `sendPrompt` returns the text of the last
`"text"`-typed part (tool parts interleaved after it are ignored), and the
empty string when no text part exists; on a non-200 response it throws. -/
theorem C6_sendPrompt_last_text_part (result : PromptResult) :
    (result.status = 200 → ∀ l₁ (p : PromptPart) l₂, result.parts = l₁ ++ p :: l₂ →
      p.type = "text" → (∀ q ∈ l₂, q.type ≠ "text") →
      sendPrompt result = .ok p.text) ∧
    (result.status = 200 → (∀ q ∈ result.parts, q.type ≠ "text") →
      sendPrompt result = .ok "") ∧
    (result.status ≠ 200 →
      sendPrompt result = .error ("OpenCode prompt failed with status " ++ toString result.status)) := by
  refine ⟨?_, ?_, ?_⟩
  · intro h200 l₁ p l₂ hsplit htext hrest
    have hfilter₂ : l₂.filter (fun q => q.type == "text") = [] := by
      rw [List.filter_eq_nil_iff]
      intro q hq
      simpa using hrest q hq
    simp only [sendPrompt, h200, ne_eq, not_true_eq_false, if_false, hsplit,
      List.filter_append, List.filter_cons, htext]
    simp [hfilter₂]
  · intro h200 hnone
    have hfilter : result.parts.filter (fun q => q.type == "text") = [] := by
      rw [List.filter_eq_nil_iff]
      intro q hq
      simpa using hnone q hq
    simp [sendPrompt, h200, hfilter]
  · intro hne
    simp [sendPrompt, hne]

/-- C6 witness: a 200 response with interleaved tool and text parts yields
the last text part; a 200 response with only tool parts yields `""`; a 500
response throws. -/
theorem C6_sendPrompt_last_text_part_witness :
    sendPrompt ⟨200, [⟨"tool", "t1"⟩, ⟨"text", "draft"⟩, ⟨"tool", "t2"⟩,
      ⟨"text", "final"⟩, ⟨"tool", "t3"⟩]⟩ = .ok "final" ∧
    sendPrompt ⟨200, [⟨"tool", "t1"⟩]⟩ = .ok "" ∧
    sendPrompt ⟨500, []⟩ = .error "OpenCode prompt failed with status 500" := by
  refine ⟨(C6_sendPrompt_last_text_part _).1 rfl
      [⟨"tool", "t1"⟩, ⟨"text", "draft"⟩, ⟨"tool", "t2"⟩] ⟨"text", "final"⟩
      [⟨"tool", "t3"⟩] rfl rfl (by decide),
    (C6_sendPrompt_last_text_part _).2.1 rfl (by decide),
    (C6_sendPrompt_last_text_part _).2.2 (by decide)⟩

/-! ### Diff-hunk extraction (`getFileDiffHunk` / `parseHunks` in `src/git.ts`)

The git plumbing (`git fetch`, `git diff`) is an external command; the
functions here are the pure extraction the source applies to the diff text
it receives on stdout. -/

/-- JavaScript whitespace test for `String.prototype.trim` (ASCII range). -/
def isWsp (c : Char) : Bool := c == ' ' || c == '\n' || c == '\t' || c == '\r'

/-- JavaScript `String.prototype.trim` over a character list. -/
def trimL (s : List Char) : List Char :=
  ((s.dropWhile isWsp).reverse.dropWhile isWsp).reverse

/-- JavaScript `diff.split("\n")` over a character list. -/
def splitOnNl : List Char → List (List Char)
  | [] => [[]]
  | c :: cs =>
    let r := splitOnNl cs
    if c = '\n' then [] :: r
    else
      match r with
      | h :: t => (c :: h) :: t
      | [] => [[c]]

/-- Join line lists with newlines (JavaScript `lines.join("\n")`). -/
def joinNl : List (List Char) → List Char
  | [] => []
  | [l] => l
  | l :: l' :: rest => l ++ '\n' :: joinNl (l' :: rest)

/-- Consume a maximal nonempty run of decimal digits (the `\d+` of the hunk
header regex), returning its value and the remaining characters. -/
def parseDigitsAux : List Char → Nat → Nat × List Char
  | [], acc => (acc, [])
  | c :: cs, acc =>
    if c.isDigit then parseDigitsAux cs (acc * 10 + (c.toNat - 48))
    else (acc, c :: cs)

/-- `parseDigits s` : `some (value, rest)` when `s` starts with a digit. -/
def parseDigits (s : List Char) : Option (Nat × List Char) :=
  match s with
  | [] => none
  | c :: cs =>
    if c.isDigit then some (parseDigitsAux cs (c.toNat - 48))
    else none

/-- The optional `,count` group of the hunk header regex: consume `,`
followed by digits when present, otherwise leave the input unchanged. -/
def parseOptCount (s : List Char) : Option Nat × List Char :=
  match s with
  | ',' :: rest =>
    match parseDigits rest with
    | some (count, rest') => (some count, rest')
    | none => (none, s)
  | _ => (none, s)

/-- The hunk header match of `parseHunks`:
`/^@@ -\d+(?:,\d+)? \+(\d+)(?:,(\d+))? @@(.*)$/` applied to one line,
returning the captured new-file start and line count, with a missing count
defaulting to 1 (as in the source). -/
def parseHunkHeader (line : List Char) : Option (Nat × Nat) :=
  match line with
  | '@' :: '@' :: ' ' :: '-' :: rest =>
    match parseDigits rest with
    | none => none
    | some (_, r1) =>
      match (parseOptCount r1).2 with
      | ' ' :: '+' :: r3 =>
        match parseDigits r3 with
        | none => none
        | some (newStart, r4) =>
          match parseOptCount r4 with
          | (count, r5) =>
            match r5 with
            | ' ' :: '@' :: '@' :: _ => some (newStart, count.getD 1)
            | _ => none
      | _ => none
  | _ => none

/-- `ParsedHunk` from `git.ts`: new-file start line, new-file line count,
and the hunk's full content (header line included). -/
structure ParsedHunk where
  newStart : Nat
  newLines : Nat
  content : List Char
deriving DecidableEq, Repr

/-- Flush the hunk under construction (the "save previous hunk if exists"
step of `parseHunks`). -/
def flushHunk : Option ((Nat × Nat) × List (List Char)) → List ParsedHunk
  | none => []
  | some ((s, n), cur) => if cur.isEmpty then [] else [⟨s, n, joinNl cur⟩]

/-- The line loop of `parseHunks`: the accumulator holds the current hunk's
header info and collected lines, if a header has been seen. -/
def parseHunksGo : List (List Char) → Option ((Nat × Nat) × List (List Char)) → List ParsedHunk
  | [], st => flushHunk st
  | line :: rest, st =>
    match parseHunkHeader line with
    | some info => flushHunk st ++ parseHunksGo rest (some (info, [line]))
    | none =>
      match st with
      | some (info, cur) => parseHunksGo rest (some (info, cur ++ [line]))
      | none => parseHunksGo rest none

/-- `parseHunks(diff)` from `git.ts`: split on newlines and group lines
under their `@@` headers. -/
def parseHunks (diff : List Char) : List ParsedHunk :=
  parseHunksGo (splitOnNl diff) none

/-- The containment test of `getFileDiffHunk`:
`lineNumber >= hunk.newStart && lineNumber < hunk.newStart + hunk.newLines`. -/
def hunkContains (lineNumber : Nat) (hunk : ParsedHunk) : Bool :=
  decide (hunk.newStart ≤ lineNumber) && decide (lineNumber < hunk.newStart + hunk.newLines)

/-- The extraction step of `getFileDiffHunk(repoPath, targetBranch,
filePath, lineNumber)` from `git.ts`, applied to the diff text `stdout`
produced by the external `git diff`: empty diff yields `""`; a missing (or
JavaScript-falsy `0`) line number yields the trimmed whole diff; otherwise
the first hunk whose new range contains the line, else the trimmed whole
diff. -/
def getFileDiffHunk (stdout : List Char) (lineNumber : Option Nat) : List Char :=
  if (trimL stdout).isEmpty then []
  else
    match lineNumber with
    | none => trimL stdout
    | some n =>
      if n = 0 then trimL stdout
      else
        match (parseHunks stdout).find? (hunkContains n) with
        | some relevantHunk => relevantHunk.content
        | none => trimL stdout

/-- The new-file ranges of two hunks do not overlap. -/
def rangesDisjoint (h1 h2 : ParsedHunk) : Bool :=
  decide (h1.newStart + h1.newLines ≤ h2.newStart) ||
    decide (h2.newStart + h2.newLines ≤ h1.newStart)

/-- All hunks of a list have pairwise non-overlapping new-file ranges (true
of every well-formed unified diff). -/
def pairwiseDisjointHunks : List ParsedHunk → Bool
  | [] => true
  | h :: t => t.all (rangesDisjoint h) && pairwiseDisjointHunks t

theorem find?_hunk_eq {l : List ParsedHunk} {h : ParsedHunk} {n : Nat}
    (hd : pairwiseDisjointHunks l = true) (hm : h ∈ l)
    (hc : hunkContains n h = true) :
    l.find? (hunkContains n) = some h := by
  induction l with
  | nil => cases hm
  | cons x xs ih =>
    simp only [pairwiseDisjointHunks, Bool.and_eq_true, List.all_eq_true] at hd
    rcases List.mem_cons.mp hm with rfl | hm'
    · exact List.find?_cons_of_pos _ hc
    · have hx : hunkContains n x = false := by
        have hdis := hd.1 h hm'
        simp only [rangesDisjoint, Bool.or_eq_true, decide_eq_true_eq] at hdis
        simp only [hunkContains, Bool.and_eq_true, decide_eq_true_eq] at hc
        cases hxb : hunkContains n x
        · rfl
        · exfalso
          simp only [hunkContains, Bool.and_eq_true, decide_eq_true_eq] at hxb
          omega
      rw [List.find?_cons_of_neg _ (by simp [hx])]
      exact ih hd.2 hm'

/-- C7: diff-hunk extraction returns the content of the hunk whose
new-file range (parsed from the `@@` header, missing count defaulting to 1)
contains the requested line, and the (trimmed) whole diff when no line
number is given or the line is outside every hunk's new range. -/
theorem C7_getFileDiffHunk_extraction (d : List Char) (n : Nat) (h : ParsedHunk) :
    (getFileDiffHunk d none = trimL d) ∧
    ((∀ h' ∈ parseHunks d, hunkContains n h' = false) →
      getFileDiffHunk d (some n) = trimL d) ∧
    (n ≠ 0 → trimL d ≠ [] → pairwiseDisjointHunks (parseHunks d) = true →
      h ∈ parseHunks d → hunkContains n h = true →
      getFileDiffHunk d (some n) = h.content) ∧
    (parseHunkHeader "@@ -3,2 +10 @@ ctx".data = some (10, 1)) ∧
    (parseHunkHeader "@@ -3,2 +10,4 @@".data = some (10, 4)) := by
  refine ⟨?_, ?_, ?_, by decide, by decide⟩
  · by_cases he : (trimL d).isEmpty = true
    · rw [getFileDiffHunk, if_pos he]
      exact (List.isEmpty_iff.mp he).symm
    · rw [getFileDiffHunk, if_neg he]
  · intro hall
    by_cases he : (trimL d).isEmpty = true
    · rw [getFileDiffHunk, if_pos he]
      exact (List.isEmpty_iff.mp he).symm
    · rw [getFileDiffHunk, if_neg he]
      by_cases hn : n = 0
      · rw [if_pos hn]
      · rw [if_neg hn]
        have : (parseHunks d).find? (hunkContains n) = none := by
          rw [List.find?_eq_none]
          intro x hx
          simp [hall x hx]
        rw [this]
  · intro hn he hdisj hmem hcont
    rw [getFileDiffHunk, if_neg (by simpa using he), if_neg hn,
      find?_hunk_eq hdisj hmem hcont]

/-- C7 witness: a two-hunk diff; a line inside hunk 2's new range returns
exactly hunk 2's content, a line outside all hunks returns the whole
(trimmed) diff, and so does a request with no line number. -/
theorem C7_getFileDiffHunk_extraction_witness :
    (getFileDiffHunk ("@@ -1,2 +1,2 @@ f1\n ctx\n-a\n+b\n@@ -10,3 +12,4 @@ f2\n more\n+x\n y\n z").data
      (some 13) = ("@@ -10,3 +12,4 @@ f2\n more\n+x\n y\n z").data) ∧
    (getFileDiffHunk ("@@ -1,2 +1,2 @@ f1\n ctx\n-a\n+b\n@@ -10,3 +12,4 @@ f2\n more\n+x\n y\n z").data
      (some 99) = trimL ("@@ -1,2 +1,2 @@ f1\n ctx\n-a\n+b\n@@ -10,3 +12,4 @@ f2\n more\n+x\n y\n z").data) ∧
    (getFileDiffHunk ("@@ -1,2 +1,2 @@ f1\n ctx\n-a\n+b\n@@ -10,3 +12,4 @@ f2\n more\n+x\n y\n z").data
      none = trimL ("@@ -1,2 +1,2 @@ f1\n ctx\n-a\n+b\n@@ -10,3 +12,4 @@ f2\n more\n+x\n y\n z").data) :=
  ⟨(C7_getFileDiffHunk_extraction _ 13
      ⟨12, 4, ("@@ -10,3 +12,4 @@ f2\n more\n+x\n y\n z").data⟩).2.2.1
    (by decide) (by decide) (by decide) (by decide) (by decide),
  (C7_getFileDiffHunk_extraction _ 99 ⟨0, 0, []⟩).2.1 (by decide),
  (C7_getFileDiffHunk_extraction _ 0 ⟨0, 0, []⟩).1⟩

/-! ### Run-config resolution (`resolveRunConfig` in `src/common.ts`) -/

/-- `RepositoryInfo` from `common.ts`. -/
structure RepositoryInfo where
  organization : String
  project : String
  repositoryId : String
deriving DecidableEq, Repr

/-- `PrRunContext` from `common.ts`: PR id plus optional trigger ids. -/
structure PrRunContext where
  pullRequestId : Nat
  threadId : Option Nat
  commentId : Option Nat
deriving DecidableEq, Repr

/-- `OpencodeConfig` from `common.ts`. -/
structure OpencodeConfig where
  agent : Option String
  providerID : String
  modelID : String
deriving DecidableEq, Repr

/-- `RunConfig` from `common.ts`: the immutable per-invocation input. -/
structure RunConfig where
  repository : RepositoryInfo
  opencodeConfig : OpencodeConfig
  context : PrRunContext
  pat : String
  workspacePath : Option String
  buildId : Option String
  collectionUri : Option String
  mode : Option RunMode
  skipClone : Bool
  reviewPrompt : Option String
deriving DecidableEq, Repr

/-- `ResolvedRunConfig` from `common.ts`: the input plus the resolved mode,
the trigger context, and whether the mode was explicit. -/
structure ResolvedRunConfig where
  config : RunConfig
  triggerContext : CommandTriggerContext
  mode : RunMode
  explicitMode : Bool
deriving DecidableEq, Repr

/-- The PR-system API calls `resolveRunConfig` can make. -/
inductive ApiAction
  | getPullRequestThread (threadId : Nat)
deriving DecidableEq, Repr

/-- The tail of `resolveRunConfig` after the trigger context is settled:
mode resolution, then trigger validation when the mode was inferred. -/
def resolveRunConfigFinish (config : RunConfig) (triggerContext : CommandTriggerContext)
    (explicitMode : Bool) (trace : List ApiAction) :
    Except String ResolvedRunConfig × List ApiAction :=
  match resolveModeFromComment triggerContext config.mode with
  | .error e => (.error e, trace)
  | .ok mode =>
    if ¬explicitMode then
      match triggerContext.comment with
      | none => (.error "Trigger comment is required to validate mode when auto-detected.", trace)
      | some comment =>
        match validateTrigger comment.content mode with
        | .error e => (.error e, trace)
        | .ok () => (.ok ⟨config, triggerContext, mode, explicitMode⟩, trace)
    else
      (.ok ⟨config, triggerContext, mode, explicitMode⟩, trace)

/-- `resolveRunConfig(config)` from `common.ts`.  `getThreadResult` is the
outcome of the one PR API call it may issue; the second component records
the API calls actually made. -/
def resolveRunConfig (config : RunConfig)
    (getThreadResult : Except String PullRequestThreadData) :
    Except String ResolvedRunConfig × List ApiAction :=
  if config.repository.project = "" then
    (.error "Repository project is required to run the task.", [])
  else if config.repository.repositoryId = "" then
    (.error "Repository ID is required to run the task.", [])
  else
    let explicitMode := config.mode.isSome
    match config.context.threadId, config.context.commentId with
    | some threadId, some commentId =>
      (match getThreadResult with
       | .error e => (.error e, [.getPullRequestThread threadId])
       | .ok thread =>
         match thread.comments.find? (fun c => c.id == commentId) with
         | none =>
           (.error ("Comment #" ++ toString commentId ++ " not found in thread #" ++ toString threadId),
             [.getPullRequestThread threadId])
         | some comment =>
           resolveRunConfigFinish config ⟨some thread, some comment⟩ explicitMode
             [.getPullRequestThread threadId])
    | _, _ =>
      if ¬explicitMode then
        (.error "threadId and commentId inputs are required when mode is not specified. Provide these inputs or set the mode explicitly.",
          [])
      else
        resolveRunConfigFinish config ⟨none, none⟩ explicitMode []

/-- C8: with no trigger thread/comment ids and no explicit mode,
`resolveRunConfig` fails before making any PR API call; likewise a missing
project or repository id fails before any API call. -/
theorem C8_resolveRunConfig_fails_before_side_effects (config : RunConfig)
    (getThreadResult : Except String PullRequestThreadData) :
    ((config.context.threadId = none ∨ config.context.commentId = none) →
      config.mode = none →
      (∃ e, (resolveRunConfig config getThreadResult).1 = .error e) ∧
        (resolveRunConfig config getThreadResult).2 = []) ∧
    ((config.repository.project = "" ∨ config.repository.repositoryId = "") →
      (∃ e, (resolveRunConfig config getThreadResult).1 = .error e) ∧
        (resolveRunConfig config getThreadResult).2 = []) := by
  constructor
  · intro hids hmode
    rw [resolveRunConfig]
    by_cases hp : config.repository.project = ""
    · rw [if_pos hp]
      exact ⟨⟨_, rfl⟩, rfl⟩
    · rw [if_neg hp]
      by_cases hr : config.repository.repositoryId = ""
      · rw [if_pos hr]
        exact ⟨⟨_, rfl⟩, rfl⟩
      · rw [if_neg hr]
        have hexp : config.mode.isSome = false := by simp [hmode]
        rcases hids with hid | hid <;>
          rcases hid1 : config.context.threadId with - | t <;>
            rcases hid2 : config.context.commentId with - | c <;>
              simp_all
  · intro hpr
    rw [resolveRunConfig]
    by_cases hp : config.repository.project = ""
    · rw [if_pos hp]
      exact ⟨⟨_, rfl⟩, rfl⟩
    · rw [if_neg hp]
      rcases hpr with hpr | hpr
      · exact absurd hpr hp
      · rw [if_pos hpr]
        exact ⟨⟨_, rfl⟩, rfl⟩

/-- C8 witness: a headless config without an explicit mode fails with no
API call; a config missing the repository id fails with no API call. -/
theorem C8_resolveRunConfig_fails_before_side_effects_witness :
    ((∃ e, (resolveRunConfig
        ⟨⟨"org", "proj", "repo"⟩, ⟨none, "p", "m"⟩, ⟨7, none, none⟩, "pat",
          none, none, none, none, false, none⟩
        (.ok ⟨[]⟩)).1 = .error e) ∧
      (resolveRunConfig
        ⟨⟨"org", "proj", "repo"⟩, ⟨none, "p", "m"⟩, ⟨7, none, none⟩, "pat",
          none, none, none, none, false, none⟩
        (.ok ⟨[]⟩)).2 = []) ∧
    ((∃ e, (resolveRunConfig
        ⟨⟨"org", "proj", ""⟩, ⟨none, "p", "m"⟩, ⟨7, some 1, some 2⟩, "pat",
          none, none, none, some .review, false, none⟩
        (.ok ⟨[]⟩)).1 = .error e) ∧
      (resolveRunConfig
        ⟨⟨"org", "proj", ""⟩, ⟨none, "p", "m"⟩, ⟨7, some 1, some 2⟩, "pat",
          none, none, none, some .review, false, none⟩
        (.ok ⟨[]⟩)).2 = []) :=
  ⟨(C8_resolveRunConfig_fails_before_side_effects _ _).1 (Or.inl rfl) rfl,
    (C8_resolveRunConfig_fails_before_side_effects _ _).2 (Or.inr rfl)⟩

/-! ### Shared runner helpers (`src/common.ts`, `src/git.ts`,
`src/prompts/code-review-prompt.ts`) -/

/-- `getCommentFooter(organization, project, buildId)` from `common.ts`. -/
def getCommentFooter (organization : String) (project : String)
    (buildId : Option String) : String :=
  match buildId with
  | none => ""
  | some b =>
    if b = "" ∨ organization = "" then ""
    else
      "\n\n---\n**Pipeline:** [Build #" ++ b ++ "](https://dev.azure.com/" ++
        organization ++ "/" ++ project ++ "/_build/results?buildId=" ++ b ++ ")"

/-- `cleanupWorkspace(workspace)` from `common.ts`: a recursive removal
whose failure is caught and logged.  `rmOutcome` is the outcome of the
external `fs.rm`; the function returns only its console output — by
construction it cannot propagate an error. -/
def cleanupWorkspace (workspace : String) (rmOutcome : Except String Unit) : List String :=
  ("Cleaning up workspace: " ++ workspace) ::
    match rmOutcome with
    | .ok () => ["Workspace cleaned up successfully"]
    | .error e => ["Failed to clean up workspace (may be locked): " ++ e]

/-- JavaScript `s.replace(pat, repl)` with a string pattern: replace the
first occurrence of `pat` (assumed nonempty) in `s`. -/
def replaceFirstL : List Char → List Char → List Char → List Char
  | [], _, _ => []
  | s@(c :: cs), pat, repl =>
    if startsWithL s pat then repl ++ s.drop pat.length
    else c :: replaceFirstL cs pat repl

/-- `pr.sourceRefName.replace("refs/heads/", "")` from the runners. -/
def stripRefsHeads (s : String) : String :=
  ⟨replaceFirstL s.data "refs/heads/".data []⟩

/-- The workspace directory `cloneRepo` produces:
`` `${workspacePath}/${repositoryId}` `` (`git.ts`). -/
def cloneWorkspaceDir (workspacePath repositoryId : String) : String :=
  workspacePath ++ "/" ++ repositoryId

/-- `REVIEW_SCRIPT_NAME` from `code-review.ts`. -/
def REVIEW_SCRIPT_NAME : String := "add-review-comment.mjs"

/-- `DEFAULT_REVIEW_INSTRUCTIONS` from `prompts/code-review-prompt.ts`. -/
def DEFAULT_REVIEW_INSTRUCTIONS : String :=
  "\nYou have access to the entire repository for context, but focus your review comments on the changed files only.\n\n## Review Guidelines\n- Look for bugs, performance issues, security vulnerabilities, and code smells.\n- Ensure adherence to coding standards and best practices.\n- Verify that the code is well-documented and maintainable.\n- Check for proper error handling and edge cases.\n- Suggest improvements for readability and structure.\n\n## Pull Request details\n\x7b\x7bPrContext\x7d\x7d\n"

/-- `buildCodeReviewPrompt(context)` from `prompts/code-review-prompt.ts`. -/
def buildCodeReviewPrompt (toolPath contextData : String)
    (customPrompt : Option String) : String :=
  let reviewInstructions : String :=
    match customPrompt with
    | none => DEFAULT_REVIEW_INSTRUCTIONS
    | some p => if trimL p.data = [] then DEFAULT_REVIEW_INSTRUCTIONS else ⟨trimL p.data⟩
  let assembled :=
    "You are performing a code review on a pull request. More details about your task are provided below.\n\n## How to Add Review Comments\n\nUse the node script to create comments on specific lines. If you have a suggested fix, include it in a markdown suggestion code block within the comment.\n\nCommand MUST be like this:\n```bash\nnode " ++
      toolPath ++
      " --file \"<file_path>\" --line <line_number> --comment \"<your comment>\"\n```\n\n**Example:**\n```bash\nnode " ++
      toolPath ++
      " --file \"src/services/api.ts\" --line 42 --comment \"Consider using optional chaining here to handle potential null values.\"\n```\n\n## Review Instructions\n\n" ++
      reviewInstructions ++ "\n\n"
  ⟨replaceFirstL assembled.data "\x7b\x7bPrContext\x7d\x7d".data contextData.data⟩

/-- JavaScript truthiness of an optional numeric id (`null`, `undefined`
and `0` are falsy). -/
def optTruthy : Option Nat → Bool
  | none => false
  | some n => n != 0

/-- `replyComment.id || null` : a present but zero id is normalized away. -/
def normalizeId : Option Nat → Option Nat
  | none => none
  | some i => if i = 0 then none else some i

/-! ### Mode runners (`src/code-review.ts`, `src/command.ts`)

Each external call's outcome is an oracle field; every call the runner
makes is recorded in the trace, in program order.  The `try` block is one
function producing the resources held (`spawned`, `workspace`,
`cleanupWorkspaceDir`, `replyCommentId`) together with its outcome; the
`catch` and `finally` blocks are layered on top exactly as in the source. -/

/-- The external calls a mode runner performs. -/
inductive Action
  | assertInstalled
  | addComment (content : String)
  | fetchPullRequest
  | fetchIterations
  | fetchThreads
  | fetchIterationChanges
  | rmWorkspace (dir : String)
  | cloneRepo (branch : String)
  | copyReviewScript
  | spawnServer (dir : String)
  | connectPoll
  | createSession
  | subscribeEvents
  | sendPromptCall (text : String)
  | editComment (content : String)
  | createThread (status : String) (content : String)
  | setupGitConfig
  | checkUncommittedChanges
  | commit (message : String)
  | push
  | killServer
deriving DecidableEq, Repr

/-- Fetched PR data, as far as the runners consume it directly
(`sourceRefName`; the rest feeds the prompt's data context, which the
spec treats as an external prompt-builder collaborator and which the
oracle therefore supplies as `dataContext`). -/
structure PrData where
  sourceRefName : String
deriving DecidableEq, Repr

/-- Outcomes of the external calls `runCodeReview` makes, in program
order.  `prFetch` is the joint outcome of the three concurrent fetches
(PR, iterations, threads): `Promise.all` rejects if any of them does.
`promptCall` is the prompt HTTP exchange (agent resolution included); its
successful value is the raw response that `sendPrompt`'s processing is
then applied to.  The environment-variable exports before the server spawn
are process-local state with no observable effect modelled here. -/
structure ReviewOracle where
  installedOk : Bool
  addCommentResult : Except String (Option Nat)
  prFetch : Except String PrData
  iterationChanges : Except String Unit
  cloneResult : Except String Unit
  copyScriptResult : Except String Unit
  live : Nat → Bool
  sessionResult : Except String Unit
  promptCall : Except String PromptResult
  editResult : Except String Unit
  editFailResult : Except String Unit
  createThreadResult : Except String Unit
  dataContext : String

/-- The state of `runCodeReview` when its `try` block exits: the trace so
far, the held resources, and the block's outcome. -/
structure ReviewTryOut where
  trace : List Action
  spawned : Bool
  cleanupWorkspaceDir : Bool
  workspace : Option String
  replyCommentId : Option Nat
  result : Except String Unit
deriving Repr

/-- The tail of `runCodeReview`'s `try` block once a workspace exists:
copy the review script, build the prompt, spawn the agent server, connect,
open a session, subscribe, prompt, and (comment-activated runs only) edit
the reply with the agent's final text. -/
def reviewAfterWorkspace (rc : ResolvedRunConfig) (o : ReviewOracle)
    (replyId : Option Nat) (footer : String) (workspace : String)
    (owned : Bool) (tr : List Action) : ReviewTryOut :=
  let commentTrigger := rc.triggerContext.comment.isNone
  let trc := tr ++ [.copyReviewScript]
  match o.copyScriptResult with
  | .error e => ⟨trc, false, owned, some workspace, replyId, .error e⟩
  | .ok () =>
    let prompt := buildCodeReviewPrompt REVIEW_SCRIPT_NAME o.dataContext rc.config.reviewPrompt
    let trs := trc ++ [.spawnServer workspace, .connectPoll]
    match (waitForConnection o.live).1 with
    | .error e => ⟨trs, true, owned, some workspace, replyId, .error e⟩
    | .ok () =>
      let trn := trs ++ [.createSession]
      match o.sessionResult with
      | .error e => ⟨trn, true, owned, some workspace, replyId, .error e⟩
      | .ok () =>
        let trp := trn ++ [.subscribeEvents, .sendPromptCall prompt]
        match o.promptCall with
        | .error e => ⟨trp, true, owned, some workspace, replyId, .error e⟩
        | .ok result =>
          match sendPrompt result with
          | .error e => ⟨trp, true, owned, some workspace, replyId, .error e⟩
          | .ok response =>
            if !commentTrigger && optTruthy replyId && optTruthy rc.config.context.threadId then
              let tre := trp ++ [.editComment (response ++ footer)]
              match o.editResult with
              | .error e => ⟨tre, true, owned, some workspace, replyId, .error e⟩
              | .ok () => ⟨tre, true, owned, some workspace, replyId, .ok ()⟩
            else
              ⟨trp, true, owned, some workspace, replyId, .ok ()⟩

/-- The `try` block of `runCodeReview(config)` from `code-review.ts`. -/
def reviewTry (rc : ResolvedRunConfig) (o : ReviewOracle) : ReviewTryOut :=
  let cfg := rc.config
  let workspacePath := cfg.workspacePath.getD "./workspace"
  let comment := rc.triggerContext.comment
  let commentTrigger := comment.isNone
  let footer := getCommentFooter cfg.repository.organization cfg.repository.project cfg.buildId
  let tr0 := [Action.assertInstalled]
  if ¬o.installedOk then
    ⟨tr0, false, false, none, none, .error "OpenCode CLI is not installed on this agent"⟩
  else
    match (match comment with
           | some c => validateTrigger c.content .review
           | none => .ok ()) with
    | .error e => ⟨tr0, false, false, none, none, .error e⟩
    | .ok () =>
      let tr1 := tr0 ++
        (if commentTrigger then []
         else [Action.addComment ("Reviewing pull request..." ++ footer)])
      match (if commentTrigger then Except.ok none
             else o.addCommentResult.map normalizeId) with
      | .error e => ⟨tr1, false, false, none, none, .error e⟩
      | .ok replyId =>
        let tr2 := tr1 ++ [.fetchPullRequest, .fetchIterations, .fetchThreads]
        match o.prFetch with
        | .error e => ⟨tr2, false, false, none, replyId, .error e⟩
        | .ok pr =>
          let tr3 := tr2 ++ [.fetchIterationChanges]
          match o.iterationChanges with
          | .error e => ⟨tr3, false, false, none, replyId, .error e⟩
          | .ok () =>
            if cfg.skipClone then
              if workspacePath = "" then
                ⟨tr3, false, false, none, replyId,
                  .error "workspacePath is required when skipClone is enabled"⟩
              else
                reviewAfterWorkspace rc o replyId footer workspacePath false tr3
            else
              let tr4 := tr3 ++ [.rmWorkspace workspacePath,
                .cloneRepo (stripRefsHeads pr.sourceRefName)]
              match o.cloneResult with
              | .error e => ⟨tr4, false, false, none, replyId, .error e⟩
              | .ok () =>
                reviewAfterWorkspace rc o replyId footer
                  (cloneWorkspaceDir workspacePath cfg.repository.repositoryId) true tr4

/-- The `catch` block of `runCodeReview`: deliver the failure message by
editing the posted reply, or by opening a new thread with status `"fixed"`
(the "closed" status flag), then rethrow.  A failure of the delivery call
itself replaces the original error, as in JavaScript. -/
def reviewCatch (rc : ResolvedRunConfig) (o : ReviewOracle) (t : ReviewTryOut) :
    Except String Unit × List Action :=
  let cfg := rc.config
  let commentTrigger := rc.triggerContext.comment.isNone
  let footer := getCommentFooter cfg.repository.organization cfg.repository.project cfg.buildId
  match t.result with
  | .ok () => (.ok (), [])
  | .error e =>
    let errorMessage := "## OpenCode Review Summary\n\nReview failed: " ++ e ++ footer
    if !commentTrigger && optTruthy t.replyCommentId && optTruthy cfg.context.threadId then
      match o.editFailResult with
      | .ok () => (.error e, [.editComment errorMessage])
      | .error e2 => (.error e2, [.editComment errorMessage])
    else
      match o.createThreadResult with
      | .ok () => (.error e, [.createThread "fixed" errorMessage])
      | .error e2 => (.error e2, [.createThread "fixed" errorMessage])

/-- The `finally` block of `runCodeReview`: kill the agent server if it was
spawned, and invoke `cleanupWorkspace` on an owned workspace. -/
def reviewFinallyTrace (t : ReviewTryOut) : List Action :=
  (if t.spawned then [Action.killServer] else []) ++
    (match t.workspace with
     | some w => if t.cleanupWorkspaceDir then [Action.rmWorkspace w] else []
     | none => [])

/-- `runCodeReview(config)` from `code-review.ts`: `try` block, `catch`
block, `finally` block, in source order. -/
def runCodeReview (rc : ResolvedRunConfig) (o : ReviewOracle) :
    Except String Unit × List Action :=
  let t := reviewTry rc o
  ((reviewCatch rc o t).1, t.trace ++ (reviewCatch rc o t).2 ++ reviewFinallyTrace t)

/-- Outcomes of the external calls `runCommand` makes, in program order. -/
structure CommandOracle where
  installedOk : Bool
  addCommentResult : Except String (Option Nat)
  prFetch : Except String PrData
  iterationChanges : Except String Unit
  cloneResult : Except String Unit
  gitConfigResult : Except String Unit
  live : Nat → Bool
  sessionResult : Except String Unit
  promptCall : Except String PromptResult
  hasUncommittedChanges : Except String Bool
  summaryCall : Except String PromptResult
  commitResult : Except String Unit
  pushResult : Except String Unit
  editResult : Except String Unit
  dataContext : String

/-- The state of `runCommand` when its `try` block exits. -/
structure CommandTryOut where
  trace : List Action
  spawned : Bool
  workspace : Option String
  result : Except String Unit
deriving Repr

/-- The tail of `runCommand`'s `try` block after the agent produced its
response: detect uncommitted changes; if any, obtain a short summary via a
second prompt, commit and push; finally edit the posted reply with the
agent's final text. -/
def commandAfterResponse (o : CommandOracle)
    (footer response workspace : String) (tr : List Action) : CommandTryOut :=
  let trh := tr ++ [.checkUncommittedChanges]
  match o.hasUncommittedChanges with
  | .error e => ⟨trh, true, some workspace, .error e⟩
  | .ok hasChanges =>
    let afterCommit : Except String Unit × List Action :=
      if hasChanges then
        let summaryPrompt :=
          "Summarize the following in less than 40 characters:\n\n" ++ response
        match o.summaryCall with
        | .error e => (.error e, [.sendPromptCall summaryPrompt])
        | .ok result =>
          match sendPrompt result with
          | .error e => (.error e, [.sendPromptCall summaryPrompt])
          | .ok summary =>
            match o.commitResult with
            | .error e => (.error e, [.sendPromptCall summaryPrompt, .commit summary])
            | .ok () =>
              match o.pushResult with
              | .error e =>
                (.error e, [.sendPromptCall summaryPrompt, .commit summary, .push])
              | .ok () =>
                (.ok (), [.sendPromptCall summaryPrompt, .commit summary, .push])
      else
        (.ok (), [])
    match afterCommit with
    | (.error e, trc) => ⟨trh ++ trc, true, some workspace, .error e⟩
    | (.ok (), trc) =>
      let tre := trh ++ trc ++ [.editComment (response ++ footer)]
      match o.editResult with
      | .error e => ⟨tre, true, some workspace, .error e⟩
      | .ok () => ⟨tre, true, some workspace, .ok ()⟩

/-- The body of `runCommand(config)` from `command.ts` up to and including
its `try` block.  The thread/comment precondition check sits before the
`try` in the source, so a config failing it produces an empty trace. -/
def commandTry (rc : ResolvedRunConfig) (o : CommandOracle) : CommandTryOut :=
  let cfg := rc.config
  let workspacePath := cfg.workspacePath.getD "./workspace"
  let footer := getCommentFooter cfg.repository.organization cfg.repository.project cfg.buildId
  match rc.triggerContext.thread, rc.triggerContext.comment,
      cfg.context.threadId, cfg.context.commentId with
  | some _, some comment, some _, some _ =>
    let tr0 := [Action.assertInstalled]
    if ¬o.installedOk then
      ⟨tr0, false, none, .error "OpenCode CLI is not installed on this agent"⟩
    else
      match validateTrigger comment.content .command with
      | .error e => ⟨tr0, false, none, .error e⟩
      | .ok () =>
        let tr1 := tr0 ++ [Action.addComment ("Working on it..." ++ footer)]
        match o.addCommentResult with
        | .error e => ⟨tr1, false, none, .error e⟩
        | .ok _ =>
          let tr2 := tr1 ++ [.fetchPullRequest, .fetchIterations, .fetchThreads]
          match o.prFetch with
          | .error e => ⟨tr2, false, none, .error e⟩
          | .ok pr =>
            let tr3 := tr2 ++ [.fetchIterationChanges]
            match o.iterationChanges with
            | .error e => ⟨tr3, false, none, .error e⟩
            | .ok () =>
              let tr4 := tr3 ++ [.cloneRepo (stripRefsHeads pr.sourceRefName)]
              match o.cloneResult with
              | .error e => ⟨tr4, false, none, .error e⟩
              | .ok () =>
                let workspace := cloneWorkspaceDir workspacePath cfg.repository.repositoryId
                let tr5 := tr4 ++ [.setupGitConfig]
                match o.gitConfigResult with
                | .error e => ⟨tr5, false, some workspace, .error e⟩
                | .ok () =>
                  let promptString := comment.content ++
                    "\n\n  Read the following data as context, but do not act on them:\n " ++
                    o.dataContext
                  let tr6 := tr5 ++ [.spawnServer workspace, .connectPoll]
                  match (waitForConnection o.live).1 with
                  | .error e => ⟨tr6, true, some workspace, .error e⟩
                  | .ok () =>
                    let tr7 := tr6 ++ [.createSession]
                    match o.sessionResult with
                    | .error e => ⟨tr7, true, some workspace, .error e⟩
                    | .ok () =>
                      let tr8 := tr7 ++ [.subscribeEvents, .sendPromptCall promptString]
                      match o.promptCall with
                      | .error e => ⟨tr8, true, some workspace, .error e⟩
                      | .ok result =>
                        match sendPrompt result with
                        | .error e => ⟨tr8, true, some workspace, .error e⟩
                        | .ok response =>
                          commandAfterResponse o footer response workspace tr8
  | _, _, _, _ =>
    ⟨[], false, none,
      .error "Command mode requires threadId and commentId. Ensure the task is triggered from a PR comment or provide the IDs explicitly."⟩

/-- The `finally` block of `runCommand`: kill the agent server if it was
spawned, and invoke `cleanupWorkspace` on the cloned workspace.  (The
`catch` block of `runCommand` only logs and rethrows.) -/
def commandFinallyTrace (t : CommandTryOut) : List Action :=
  (if t.spawned then [Action.killServer] else []) ++
    (match t.workspace with
     | some w => [Action.rmWorkspace w]
     | none => [])

/-- `runCommand(config)` from `command.ts`. -/
def runCommand (rc : ResolvedRunConfig) (o : CommandOracle) :
    Except String Unit × List Action :=
  let t := commandTry rc o
  (t.result, t.trace ++ commandFinallyTrace t)

/-- A headless review configuration: explicit `review` mode, no trigger
thread/comment (scenario A of the spec). -/
def headlessReviewConfig : ResolvedRunConfig :=
  ⟨⟨⟨"org", "proj", "repo"⟩, ⟨none, "anthropic", "claude"⟩, ⟨7, none, none⟩, "pat",
    none, none, none, some .review, false, none⟩, ⟨none, none⟩, .review, true⟩

/-- An oracle on which every external call of the review run succeeds and
the agent's final text is `"LGTM"`. -/
def allSuccessReviewOracle : ReviewOracle :=
  ⟨true, .ok (some 1), .ok ⟨"refs/heads/feature"⟩, .ok (), .ok (), .ok (),
    fun _ => true, .ok (), .ok ⟨200, [⟨"text", "LGTM"⟩]⟩, .ok (), .ok (), .ok (), "ctx"⟩

/-- C1 (code-bug evidence): on a headless review run in which the PR fetch
and the agent prompt succeed, `runCodeReview` completes successfully but
creates **no** PR thread and edits no comment — the agent's final text is
never delivered.  The only `createPullRequestThread` call in the source
sits in the `catch` block, so the summary thread the spec (and the
repository's README) promise on headless success is never posted. -/
theorem C1_headless_review_success_creates_no_thread :
    (runCodeReview headlessReviewConfig allSuccessReviewOracle).1 = .ok () ∧
    ((runCodeReview headlessReviewConfig allSuccessReviewOracle).2.countP
      (fun a => match a with | .createThread _ _ => true | _ => false)) = 0 ∧
    ((runCodeReview headlessReviewConfig allSuccessReviewOracle).2.countP
      (fun a => match a with | .editComment _ => true | _ => false)) = 0 :=
  ⟨rfl, by decide, by decide⟩

/-- C9: teardown is always reached and is best-effort.  For every oracle —
success or failure at any step — the review runner kills a spawned agent
server and releases an owned workspace, and the command runner does the
same for its cloned workspace; the run's result is fully determined by the
`try`/`catch` phases, so the `finally` block can never mask or replace it;
and a failing removal inside `cleanupWorkspace` is converted to a warning
log, never rethrown. -/
theorem C9_teardown_always_reached_and_best_effort
    (rc : ResolvedRunConfig) (o : ReviewOracle) (cc : ResolvedRunConfig)
    (co : CommandOracle) (w e : String) :
    ((reviewTry rc o).spawned = true → Action.killServer ∈ (runCodeReview rc o).2) ∧
    (∀ w', (reviewTry rc o).workspace = some w' →
      (reviewTry rc o).cleanupWorkspaceDir = true →
      Action.rmWorkspace w' ∈ (runCodeReview rc o).2) ∧
    ((runCodeReview rc o).1 = (reviewCatch rc o (reviewTry rc o)).1) ∧
    ((commandTry cc co).spawned = true → Action.killServer ∈ (runCommand cc co).2) ∧
    (∀ w', (commandTry cc co).workspace = some w' →
      Action.rmWorkspace w' ∈ (runCommand cc co).2) ∧
    ((runCommand cc co).1 = (commandTry cc co).result) ∧
    (cleanupWorkspace w (.error e) =
      ["Cleaning up workspace: " ++ w,
        "Failed to clean up workspace (may be locked): " ++ e]) := by
  refine ⟨?_, ?_, rfl, ?_, ?_, rfl, rfl⟩
  · intro h
    simp [runCodeReview, reviewFinallyTrace, h]
  · intro w' hw hc
    simp [runCodeReview, reviewFinallyTrace, hw, hc]
  · intro h
    simp [runCommand, commandFinallyTrace, h]
  · intro w' hw
    simp [runCommand, commandFinallyTrace, hw]

/-- A headless review configuration used to witness C9's review-runner
teardown on an error path. -/
def teardownReviewConfig : ResolvedRunConfig :=
  ⟨⟨⟨"o", "p", "r"⟩, ⟨none, "pv", "md"⟩, ⟨1, none, none⟩, "pat",
    none, none, none, some .review, false, none⟩, ⟨none, none⟩, .review, true⟩

/-- A review oracle whose session-creation call fails after the clone and
the server spawn succeeded. -/
def sessionFailureReviewOracle : ReviewOracle :=
  ⟨true, .ok none, .ok ⟨"refs/heads/b"⟩, .ok (), .ok (), .ok (),
    fun _ => true, .error "session failed", .ok ⟨200, []⟩, .ok (), .ok (),
    .ok (), "dc"⟩

/-- A comment-activated command configuration used to witness C9's
command-runner teardown. -/
def teardownCommandConfig : ResolvedRunConfig :=
  ⟨⟨⟨"o", "p", "r"⟩, ⟨none, "pv", "md"⟩, ⟨1, some 2, some 3⟩, "pat",
    none, none, none, none, false, none⟩,
    ⟨some ⟨[⟨3, "/oc fix typo"⟩]⟩, some ⟨3, "/oc fix typo"⟩⟩, .command, false⟩

/-- A command oracle on which every external call succeeds and the working
tree has uncommitted changes. -/
def allSuccessCommandOracle : CommandOracle :=
  ⟨true, .ok (some 9), .ok ⟨"refs/heads/b"⟩, .ok (), .ok (), .ok (),
    fun _ => true, .ok (), .ok ⟨200, [⟨"text", "done"⟩]⟩, .ok true,
    .ok ⟨200, [⟨"text", "Fix typo"⟩]⟩, .ok (), .ok (), .ok (), "dc"⟩

/-- C9 witness: a review run that fails mid-flight (session creation
fails) still kills the server and releases the cloned workspace; a fully
successful command run does the same; a locked workspace produces a
warning log. -/
theorem C9_teardown_always_reached_and_best_effort_witness :
    Action.killServer ∈ (runCodeReview teardownReviewConfig sessionFailureReviewOracle).2 ∧
    Action.rmWorkspace "./workspace/r" ∈
      (runCodeReview teardownReviewConfig sessionFailureReviewOracle).2 ∧
    Action.killServer ∈ (runCommand teardownCommandConfig allSuccessCommandOracle).2 ∧
    Action.rmWorkspace "./workspace/r" ∈
      (runCommand teardownCommandConfig allSuccessCommandOracle).2 ∧
    cleanupWorkspace "ws" (.error "locked") =
      ["Cleaning up workspace: ws",
        "Failed to clean up workspace (may be locked): locked"] :=
  ⟨(C9_teardown_always_reached_and_best_effort teardownReviewConfig
      sessionFailureReviewOracle teardownCommandConfig allSuccessCommandOracle
      "ws" "locked").1 (by decide),
    (C9_teardown_always_reached_and_best_effort teardownReviewConfig
      sessionFailureReviewOracle teardownCommandConfig allSuccessCommandOracle
      "ws" "locked").2.1 "./workspace/r" (by decide) (by decide),
    (C9_teardown_always_reached_and_best_effort teardownReviewConfig
      sessionFailureReviewOracle teardownCommandConfig allSuccessCommandOracle
      "ws" "locked").2.2.2.1 (by decide),
    (C9_teardown_always_reached_and_best_effort teardownReviewConfig
      sessionFailureReviewOracle teardownCommandConfig allSuccessCommandOracle
      "ws" "locked").2.2.2.2.1 "./workspace/r" (by decide),
    (C9_teardown_always_reached_and_best_effort teardownReviewConfig
      sessionFailureReviewOracle teardownCommandConfig allSuccessCommandOracle
      "ws" "locked").2.2.2.2.2.2⟩

end AzdoOpencode
